import Mathlib

/-
Verification of the zellij-notify plugin core (src/src/lib.rs).

The embedding models strings as lists of Unicode scalar values (List Char).
Byte-level operations of the Rust source (trim_end, ends_with, suffix
slicing) coincide with the character-level ones on valid UTF-8, since every
suffix removed is a whole-character suffix.

The plugin is compiled for the wasm32 target, where usize is 32 bits wide;
the cast `position as u32` is therefore lossless and the addition
`position as u32 + 1` wraps modulo 2^32 (release-build semantics), which the
model makes explicit.
-/

/-- Strings of the model: lists of Unicode scalar values. -/
abbrev Str := List Char

/-- Unicode White_Space property, as tested by char::is_whitespace in Rust
(used by str::trim_end at src/src/lib.rs line 281). -/
def isWhite (c : Char) : Bool :=
  let n := c.toNat
  decide ((9 ≤ n ∧ n ≤ 13) ∨ n = 32 ∨ n = 133 ∨ n = 160 ∨ n = 5760 ∨
    (8192 ≤ n ∧ n ≤ 8202) ∨ n = 8232 ∨ n = 8233 ∨ n = 8239 ∨ n = 8287 ∨ n = 12288)

/-- Model of str::trim_end: drop the longest run of trailing whitespace
(line 281 of src/src/lib.rs). -/
def trimEnd (s : Str) : Str := (s.reverse.dropWhile isWhite).reverse

/-- The fixed 8-glyph alphabet of the plugin (line 275 of src/src/lib.rs).
The fourth entry is the two-scalar sequence warning sign + variation
selector 16. -/
def emojis : List Str :=
  ["🔴".data, "✅".data, "❌".data, "⚠️".data, "⚡".data, "💼".data, "🎉".data, "❓".data]

/-- One pass of the inner for-loop of remove_trailing_emojis (lines 284-291):
find the first glyph of the array that is a suffix of the string and remove
that suffix; none when no glyph matches. -/
def findEmojiSuffix (t : Str) : Option Str :=
  match emojis.find? (fun e => decide (e <:+ t)) with
  | some e => some (t.take (t.length - e.length))
  | none => none

/-- One iteration of the loop of remove_trailing_emojis (lines 279-297):
trim trailing whitespace, then try to remove one trailing glyph. The Bool
is true when the loop continues with the returned string and false when it
exits returning it (nothing removed by this iteration beyond the trim that
left the length unchanged). -/
def strip_step (s : Str) : Str × Bool :=
  match findEmojiSuffix (trimEnd s) with
  | some s' => (s', true)
  | none => (trimEnd s, (trimEnd s).length != s.length)

/-- The loop of remove_trailing_emojis with an explicit iteration budget.
Every continuing iteration strictly shrinks the string, so a budget of
length + 1 is always enough and the budget arm is never reached. -/
def stripGo : Nat → Str → Str
  | 0, s => s
  | f + 1, s =>
    match strip_step s with
    | (s', true) => stripGo f s'
    | (s', false) => s'

/-- Model of remove_trailing_emojis (lines 274-300 of src/src/lib.rs): run
the loop to its fixpoint, reached within length + 1 iterations. -/
def remove_trailing_emojis (s : Str) : Str := stripGo (s.length + 1) s

/-- The same loop returning none when the iteration budget runs out, used to
state that the loop terminates within length + 1 iterations. -/
def stripLoopO : Nat → Str → Option Str
  | 0, _ => none
  | f + 1, s =>
    match strip_step s with
    | (s', true) => stripLoopO f s'
    | (s', false) => some s'

/-- Model of the label annotation at line 242 of src/src/lib.rs:
format!, concatenating the base label, one space, and the glyph. -/
def annotate (b g : Str) : Str := b ++ ' ' :: g

/-- Model of zellij TabInfo, restricted to the fields the plugin reads. -/
structure TabInfo where
  position : Nat
  name : Str
  active : Bool
  is_sync_panes_active : Bool
deriving DecidableEq

/-- Model of zellij PaneInfo, restricted to the field the plugin reads. -/
structure PaneInfo where
  id : Nat
deriving DecidableEq

/-- Model of zellij PaneManifest: panes grouped by owning tab position, in
map iteration order. -/
structure PaneManifest where
  panes : List (Nat × List PaneInfo)
deriving DecidableEq

/-- PresetConfig of src/src/lib.rs lines 11-14. -/
structure PresetConfig where
  emoji : Str
deriving DecidableEq

/-- Model of zellij PipeMessage, restricted to the fields that affect
behavior; source and is_private are only logged in debug mode. -/
structure PipeMessage where
  name : Str
  payload : Option Str
  args : List (Str × Str)
deriving DecidableEq

/-- The rename_tab host call: 1-based tab index (u32) and the new label. -/
structure RenameAction where
  index : Nat
  new_name : Str
deriving DecidableEq

/-- The plugin state of src/src/lib.rs lines 16-23. -/
structure State where
  all_tabs : List TabInfo
  focused_tab_position : Option Nat
  pane_manifest : Option PaneManifest
  presets : List (Str × PresetConfig)
  debug : Bool
deriving DecidableEq

/-- The host events the plugin subscribes to; Other stands for every other
event kind (the catch-all arm at line 114). -/
inductive Event where
  | TabUpdate : List TabInfo → Event
  | PaneUpdate : PaneManifest → Event
  | Other : Event

/-- Map lookup on an association list, modelling BTreeMap / HashMap get. -/
def assocGet {α : Type} (m : List (Str × α)) (k : Str) : Option α :=
  match m with
  | [] => none
  | (k', v) :: rest => if k' = k then some v else assocGet rest k

/-- Model of the update handler (src/src/lib.rs lines 62-116). The result is
the new state, the rename instructions issued to the host, and the returned
render flag. The for-loop over tabs processes only the first active tab and
then breaks, which is List.find?. -/
def update (s : State) (e : Event) : State × List RenameAction × Bool :=
  match e with
  | Event.TabUpdate tabs =>
    match tabs.find? (fun t => t.active) with
    | some tab =>
      if s.focused_tab_position = some tab.position then
        (State.mk tabs s.focused_tab_position s.pane_manifest s.presets s.debug, [], false)
      else
        let cleaned := remove_trailing_emojis tab.name
        (State.mk tabs (some tab.position) s.pane_manifest s.presets s.debug,
         if cleaned = tab.name then []
         else [RenameAction.mk ((tab.position % 4294967296 + 1) % 4294967296) cleaned],
         false)
    | none => (State.mk tabs s.focused_tab_position s.pane_manifest s.presets s.debug, [], false)
  | Event.PaneUpdate m =>
    (State.mk s.all_tabs s.focused_tab_position (some m) s.presets s.debug, [], false)
  | Event.Other => (s, [], false)

/-- Preset resolution (src/src/lib.rs lines 151-174): absent or empty
payload gives the built-in default glyph, a known key gives its configured
glyph, an unknown key gives the built-in fallback glyph. -/
def resolve_preset (presets : List (Str × PresetConfig)) (payload : Option Str) : PresetConfig :=
  match payload with
  | none => PresetConfig.mk ("✅".data)
  | some p =>
    if p = [] then PresetConfig.mk ("✅".data)
    else
      match assocGet presets p with
      | some pr => pr
      | none => PresetConfig.mk ("❓".data)

/-- The double loop of src/src/lib.rs lines 189-210: the first manifest
entry owning a pane whose printed id equals the argument string. -/
def findPane (entries : List (Nat × List PaneInfo)) (pid : Str) : Option Nat :=
  (entries.find? (fun entry => entry.2.any (fun p => decide ((Nat.repr p.id).data = pid)))).map
    (fun entry => entry.1)

/-- Model of str::parse::<usize> on the wasm32 target (line 222): an
optional leading plus sign, one or more ASCII digits, and the value must
fit in 32 bits. -/
def parseUsize (s : Str) : Option Nat :=
  let digits := match s with
    | '+' :: rest => rest
    | _ => s
  if digits = [] then none
  else if digits.all (fun c => c.isDigit) then
    let n := digits.foldl (fun acc c => acc * 10 + (c.toNat - 48)) 0
    if n < 4294967296 then some n else none
  else none

/-- The three-tier target resolution of src/src/lib.rs lines 180-236. -/
def target_tab_position (s : State) (args : List (Str × Str)) : Option Nat :=
  match assocGet args ("pane_id".data) with
  | some pane_id =>
    match s.pane_manifest with
    | some manifest => findPane manifest.panes pane_id
    | none => none
  | none =>
    match assocGet args ("tab_position".data) with
    | some pos_str => parseUsize pos_str
    | none => (s.all_tabs.find? (fun t => t.active)).map (fun t => t.position)

/-- The mutation step of src/src/lib.rs lines 239-268: look the resolved
position up in the stored tab list and, when found, emit one rename with
the wrapped 1-based index and the re-annotated label. -/
def emit_rename (s : State) (target : Option Nat) (emoji : Str) : List RenameAction :=
  match target with
  | some position =>
    match s.all_tabs.find? (fun t => decide (t.position = position)) with
    | some tab =>
      [RenameAction.mk ((position % 4294967296 + 1) % 4294967296)
        (annotate (remove_trailing_emojis tab.name) emoji)]
    | none => []
  | none => []

/-- Model of the pipe handler (src/src/lib.rs lines 120-271). Requests whose
name is not notify are ignored; otherwise the preset is resolved, the target
tab is resolved, and the mutation step runs. The state is never changed. -/
def pipe (s : State) (m : PipeMessage) : State × List RenameAction × Bool :=
  if m.name = "notify".data then
    (s, emit_rename s (target_tab_position s m.args) (resolve_preset s.presets m.payload).emoji,
     false)
  else (s, [], false)

/-- Entries of the stored pane manifest; empty when none has been received
yet (the None arm of line 211). -/
def paneEntries (s : State) : List (Nat × List PaneInfo) :=
  match s.pane_manifest with
  | some m => m.panes
  | none => []

example : remove_trailing_emojis ("build ⚡".data) = "build".data := by decide
example : remove_trailing_emojis ("a  ✅ ".data) = "a".data := by decide
example : remove_trailing_emojis ("x ⚠️".data) = "x".data := by decide
example : remove_trailing_emojis ("plain".data) = "plain".data := by decide
example : parseUsize ("4294967295".data) = some 4294967295 := by decide
example : parseUsize ("4294967296".data) = none := by decide
example : parseUsize ("+7".data) = some 7 := by decide
example : parseUsize ("".data) = none := by decide
example : findPane [(0, [PaneInfo.mk 7]), (1, [PaneInfo.mk 9])] ("9".data) = some 1 := by decide

/-! ### Properties of trimEnd -/

theorem trimEnd_length_le (s : Str) : (trimEnd s).length ≤ s.length := by
  have h := (List.dropWhile_suffix (l := s.reverse) isWhite).length_le
  simpa [trimEnd] using h

theorem trimEnd_idem (s : Str) : trimEnd (trimEnd s) = trimEnd s := by
  simp [trimEnd, List.dropWhile_idempotent]

theorem trimEnd_nil : trimEnd ([] : Str) = [] := rfl

theorem trimEnd_of_last_not_white (s : Str)
    (h : s.getLast?.all (fun c => !isWhite c) = true) : trimEnd s = s := by
  rcases hr : s.reverse with _ | ⟨c, r⟩
  · have : s = [] := List.reverse_eq_nil_iff.mp hr
    simp [this, trimEnd_nil]
  · have hc : s.getLast? = some c := by
      rw [← List.head?_reverse, hr]; rfl
    rw [hc] at h
    simp only [Option.all_some, Bool.not_eq_true'] at h
    have : s.reverse.dropWhile isWhite = s.reverse := by
      rw [hr, List.dropWhile_cons_of_neg (by simp [h])]
    simp [trimEnd, this]

theorem trimEnd_concat_white (s : Str) (c : Char) (h : isWhite c = true) :
    trimEnd (s ++ [c]) = trimEnd s := by
  simp [trimEnd, List.dropWhile_cons_of_pos, h]

/-! ### Properties of findEmojiSuffix -/

theorem findEmojiSuffix_some_length (t u : Str) (h : findEmojiSuffix t = some u) :
    u.length < t.length := by
  unfold findEmojiSuffix at h
  rcases hf : emojis.find? (fun e => decide (e <:+ t)) with _ | e
  · rw [hf] at h; exact absurd h (by simp)
  · rw [hf] at h
    have hp := List.find?_some hf
    have he : e <:+ t := by simpa using hp
    have hmem : e ∈ emojis := List.mem_of_find?_eq_some hf
    have hne : e ≠ [] := by
      have : ∀ x ∈ emojis, x ≠ [] := by decide
      exact this e hmem
    have hpos : 0 < e.length := List.length_pos.mpr hne
    have hle : e.length ≤ t.length := he.length_le
    have : u = t.take (t.length - e.length) := by
      injection h with h'; exact h'.symm
    subst this
    simp only [List.length_take]
    omega

theorem findEmojiSuffix_eq_none (t : Str) (h : ∀ e ∈ emojis, ¬ e <:+ t) :
    findEmojiSuffix t = none := by
  unfold findEmojiSuffix
  have : emojis.find? (fun e => decide (e <:+ t)) = none := by
    rw [List.find?_eq_none]
    intro e he
    simp [h e he]
  rw [this]

/-! ### Properties of the loop -/

theorem strip_step_true (s s' : Str) (h : strip_step s = (s', true)) :
    s'.length < s.length := by
  unfold strip_step at h
  rcases hf : findEmojiSuffix (trimEnd s) with _ | u
  · rw [hf] at h
    simp only [Prod.mk.injEq] at h
    obtain ⟨h1, h2⟩ := h
    have hne : (trimEnd s).length ≠ s.length := by simpa using h2
    have hlen := trimEnd_length_le s
    rw [← h1]
    omega
  · rw [hf] at h
    simp only [Prod.mk.injEq] at h
    obtain ⟨h1, _⟩ := h
    have hu := findEmojiSuffix_some_length (trimEnd s) u hf
    have hlen := trimEnd_length_le s
    rw [← h1]
    omega

theorem strip_step_false (s s' : Str) (h : strip_step s = (s', false)) :
    s' = trimEnd s ∧ findEmojiSuffix s' = none ∧ s'.length = s.length := by
  unfold strip_step at h
  rcases hf : findEmojiSuffix (trimEnd s) with _ | u
  · rw [hf] at h
    simp only [Prod.mk.injEq] at h
    obtain ⟨h1, h2⟩ := h
    have h3 : (trimEnd s).length = s.length := by simpa using h2
    exact ⟨h1.symm, h1 ▸ hf, by rw [← h1]; exact h3⟩
  · rw [hf] at h
    simp at h

theorem stripGo_congr (f : Nat) : ∀ (g : Nat) (s : Str), s.length < f → s.length < g →
    stripGo f s = stripGo g s := by
  induction f with
  | zero => intro g s h _; omega
  | succ f ih =>
    intro g s hf hg
    match g, hg with
    | g + 1, hg =>
      show stripGo (f + 1) s = stripGo (g + 1) s
      rcases hs : strip_step s with ⟨s', b⟩
      cases b with
      | true =>
        have hlt := strip_step_true s s' hs
        have h1 : stripGo (f + 1) s = stripGo f s' := by
          simp [stripGo, hs]
        have h2 : stripGo (g + 1) s = stripGo g s' := by
          simp [stripGo, hs]
        rw [h1, h2]
        exact ih g s' (by omega) (by omega)
      | false =>
        simp [stripGo, hs]

theorem strip_unfold (s : Str) :
    remove_trailing_emojis s =
      match strip_step s with
      | (s', true) => remove_trailing_emojis s'
      | (s', false) => s' := by
  rcases hs : strip_step s with ⟨s', b⟩
  cases b with
  | true =>
    have hlt := strip_step_true s s' hs
    show stripGo (s.length + 1) s = remove_trailing_emojis s'
    have h1 : stripGo (s.length + 1) s = stripGo s.length s' := by
      simp [stripGo, hs]
    rw [h1]
    exact stripGo_congr s.length (s'.length + 1) s' (by omega) (by omega)
  | false =>
    show stripGo (s.length + 1) s = s'
    simp [stripGo, hs]

theorem strip_of_clean (s : Str) (h1 : trimEnd s = s) (h2 : findEmojiSuffix s = none) :
    remove_trailing_emojis s = s := by
  have hs : strip_step s = (s, false) := by
    unfold strip_step
    rw [h1, h2]
    simp
  rw [strip_unfold, hs]

theorem strip_fix (s : Str) :
    trimEnd (remove_trailing_emojis s) = remove_trailing_emojis s ∧
      findEmojiSuffix (remove_trailing_emojis s) = none := by
  rcases hs : strip_step s with ⟨s', b⟩
  cases b with
  | true =>
    have he : remove_trailing_emojis s = remove_trailing_emojis s' := by
      rw [strip_unfold, hs]
    rw [he]
    exact strip_fix s'
  | false =>
    have he : remove_trailing_emojis s = s' := by
      rw [strip_unfold, hs]
    obtain ⟨ht, hn, _⟩ := strip_step_false s s' hs
    rw [he, ht]
    exact ⟨trimEnd_idem s, by rw [← ht]; exact hn⟩
termination_by s.length
decreasing_by exact strip_step_true s s' hs

theorem strip_length_le (s : Str) :
    (remove_trailing_emojis s).length ≤ s.length := by
  rcases hs : strip_step s with ⟨s', b⟩
  cases b with
  | true =>
    have he : remove_trailing_emojis s = remove_trailing_emojis s' := by
      rw [strip_unfold, hs]
    rw [he]
    have h1 := strip_length_le s'
    have h2 := strip_step_true s s' hs
    omega
  | false =>
    have he : remove_trailing_emojis s = s' := by
      rw [strip_unfold, hs]
    rw [he]
    obtain ⟨_, _, h3⟩ := strip_step_false s s' hs
    omega
termination_by s.length
decreasing_by exact strip_step_true s s' hs

/-! ### Interaction of strip with annotate -/

theorem find?_unique {α : Type} (p : α → Bool) (l : List α) (a : α)
    (hmem : a ∈ l) (hp : p a = true) (huniq : ∀ x ∈ l, p x = true → x = a) :
    l.find? p = some a := by
  induction l with
  | nil => cases hmem
  | cons b l ih =>
    by_cases hb : p b = true
    · have : b = a := huniq b (List.mem_cons_self b l) hb
      subst this
      simp [List.find?, hb]
    · have hba : b ≠ a := fun h => hb (h ▸ hp)
      have hmem' : a ∈ l := by
        rcases hmem with _ | h
        · exact absurd rfl hba
        · assumption
      have huniq' : ∀ x ∈ l, p x = true → x = a := fun x hx => huniq x (List.mem_cons_of_mem b hx)
      simp only [List.find?]
      rw [Bool.of_not_eq_true hb]
      exact ih hmem' huniq'

theorem suffix_of_append_le (e B v : Str) (hl : e.length ≤ v.length)
    (h : e <:+ B ++ v) : e <:+ v := by
  obtain ⟨w, hw⟩ := h
  rcases List.append_eq_append_iff.mp hw with ⟨a, ha1, ha2⟩ | ⟨c, hc1, hc2⟩
  · have hlen : e.length = a.length + v.length := by
      have := congrArg List.length ha2
      simpa using this
    have ha : a = [] := by
      have : a.length = 0 := by omega
      exact List.length_eq_zero.mp this
    subst ha
    simp only [List.nil_append] at ha2
    rw [ha2]
  · exact ⟨c, hc2.symm⟩

theorem emoji_facts :
    (∀ e ∈ emojis, e ≠ []) ∧ (∀ e ∈ emojis, e.length ≤ 2) ∧
      (∀ g ∈ emojis, ∀ c ∈ g.getLast?, isWhite c = false) := by decide

theorem emoji_suffix_unique :
    ∀ g ∈ emojis, ∀ e ∈ emojis, e <:+ ' ' :: g → e = g := by decide

theorem trimEnd_annotate (B g : Str) (hg : g ∈ emojis) :
    trimEnd (B ++ ' ' :: g) = B ++ ' ' :: g := by
  apply trimEnd_of_last_not_white
  have hne : g ≠ [] := emoji_facts.1 g hg
  have hlast : (B ++ ' ' :: g).getLast? = g.getLast? := by
    rw [List.getLast?_append]
    have : (' ' :: g).getLast? = g.getLast? := by
      rcases g with _ | ⟨c, r⟩
      · exact absurd rfl hne
      · simp
    rw [this]
    rcases hg' : g.getLast? with _ | c
    · exact absurd (List.getLast?_eq_none_iff.mp hg') hne
    · rfl
  rw [hlast]
  rcases hg' : g.getLast? with _ | c
  · exact absurd (List.getLast?_eq_none_iff.mp hg') hne
  · simp only [Option.all_some, Bool.not_eq_true']
    have := emoji_facts.2.2 g hg c
    simp [hg'] at this
    exact this

theorem findEmojiSuffix_annotate (B g : Str) (hg : g ∈ emojis) :
    findEmojiSuffix (B ++ ' ' :: g) = some (B ++ [' ']) := by
  have hfind : emojis.find? (fun e => decide (e <:+ B ++ ' ' :: g)) = some g := by
    apply find?_unique
    · exact hg
    · apply decide_eq_true
      exact (List.suffix_cons ' ' g).trans (List.suffix_append B (' ' :: g))
    · intro e he hp
      have hsuf : e <:+ B ++ ' ' :: g := of_decide_eq_true hp
      have hlen : e.length ≤ (' ' :: g).length := by
        have h2 := emoji_facts.2.1 e he
        have h1 : 1 ≤ g.length := List.length_pos.mpr (emoji_facts.1 g hg)
        simp only [List.length_cons]
        omega
      exact emoji_suffix_unique g hg e he (suffix_of_append_le e B (' ' :: g) hlen hsuf)
  unfold findEmojiSuffix
  rw [hfind]
  show some ((B ++ ' ' :: g).take ((B ++ ' ' :: g).length - g.length)) = some (B ++ [' '])
  have harr : B ++ ' ' :: g = (B ++ [' ']) ++ g := by simp
  rw [harr]
  have hlen2 : ((B ++ [' ']) ++ g).length - g.length = (B ++ [' ']).length := by
    simp only [List.length_append]
    omega
  rw [hlen2, List.take_left]

theorem strip_space (B : Str) :
    remove_trailing_emojis (B ++ [' ']) = remove_trailing_emojis B := by
  have ht : trimEnd (B ++ [' ']) = trimEnd B :=
    trimEnd_concat_white B ' ' (by decide)
  rcases hf : findEmojiSuffix (trimEnd B) with _ | u
  · have hlen := trimEnd_length_le B
    have hs1 : strip_step (B ++ [' ']) = (trimEnd B, true) := by
      unfold strip_step
      rw [ht, hf]
      simp only [Prod.mk.injEq, true_and]
      have : (trimEnd B).length ≠ (B ++ [' ']).length := by
        simp only [List.length_append, List.length_singleton]
        omega
      simpa using this
    have he1 : remove_trailing_emojis (B ++ [' ']) = remove_trailing_emojis (trimEnd B) := by
      rw [strip_unfold, hs1]
    by_cases hcase : (trimEnd B).length = B.length
    · have hs2 : strip_step B = (trimEnd B, false) := by
        unfold strip_step
        rw [hf]
        simpa using hcase
      have he2 : remove_trailing_emojis B = trimEnd B := by
        rw [strip_unfold, hs2]
      rw [he1, he2]
      exact strip_of_clean (trimEnd B) (trimEnd_idem B) hf
    · have hs2 : strip_step B = (trimEnd B, true) := by
        unfold strip_step
        rw [hf]
        simpa using hcase
      have he2 : remove_trailing_emojis B = remove_trailing_emojis (trimEnd B) := by
        rw [strip_unfold, hs2]
      rw [he1, he2]
  · have hs1 : strip_step (B ++ [' ']) = (u, true) := by
      unfold strip_step
      rw [ht, hf]
    have hs2 : strip_step B = (u, true) := by
      unfold strip_step
      rw [hf]
    have he1 : remove_trailing_emojis (B ++ [' ']) = remove_trailing_emojis u := by
      rw [strip_unfold, hs1]
    have he2 : remove_trailing_emojis B = remove_trailing_emojis u := by
      rw [strip_unfold, hs2]
    rw [he1, he2]

theorem strip_annotate (B g : Str) (hg : g ∈ emojis) :
    remove_trailing_emojis (B ++ ' ' :: g) = remove_trailing_emojis B := by
  have hs : strip_step (B ++ ' ' :: g) = (B ++ [' '], true) := by
    unfold strip_step
    rw [trimEnd_annotate B g hg, findEmojiSuffix_annotate B g hg]
  have he : remove_trailing_emojis (B ++ ' ' :: g) = remove_trailing_emojis (B ++ [' ']) := by
    rw [strip_unfold, hs]
  rw [he]
  exact strip_space B

/-! ### Claims about the annotation codec -/

/-- Claim C3: the strip operation is idempotent: for every label L,
strip(strip(L)) equals strip(L). -/
theorem strip_idempotent (L : Str) :
    remove_trailing_emojis (remove_trailing_emojis L) = remove_trailing_emojis L :=
  strip_of_clean _ (strip_fix L).1 (strip_fix L).2

/-- Claim C9: for every label L, strip never increases the length; and a
label with no trailing whitespace and no trailing glyph from the fixed
glyph set is returned unchanged. -/
theorem strip_length_monotone (L : Str) :
    (remove_trailing_emojis L).length ≤ L.length ∧
      ((L.getLast?.all (fun c => !isWhite c) = true ∧ ∀ e ∈ emojis, ¬ e <:+ L) →
        remove_trailing_emojis L = L) := by
  refine ⟨strip_length_le L, ?_⟩
  rintro ⟨h1, h2⟩
  exact strip_of_clean L (trimEnd_of_last_not_white L h1) (findEmojiSuffix_eq_none L h2)

/-- Witness for strip_length_monotone at the clean label ab. -/
theorem strip_length_monotone_wit :
    (remove_trailing_emojis ("ab".data)).length ≤ ("ab".data).length ∧
      remove_trailing_emojis ("ab".data) = "ab".data :=
  ⟨(strip_length_monotone ("ab".data)).1,
   (strip_length_monotone ("ab".data)).2 ⟨by decide, by decide⟩⟩

theorem stripLoopO_complete (f : Nat) : ∀ s : Str, s.length < f →
    stripLoopO f s = some (stripGo f s) := by
  induction f with
  | zero => intro s h; omega
  | succ f ih =>
    intro s hf
    rcases hs : strip_step s with ⟨s', b⟩
    cases b with
    | true =>
      have hlt := strip_step_true s s' hs
      have h1 : stripLoopO (f + 1) s = stripLoopO f s' := by simp [stripLoopO, hs]
      have h2 : stripGo (f + 1) s = stripGo f s' := by simp [stripGo, hs]
      rw [h1, h2]
      exact ih s' (by omega)
    | false => simp [stripLoopO, stripGo, hs]

/-- Claim C10: the strip loop terminates on every input: every continuing
iteration strictly decreases the length, and the loop, run with budget
length + 1, exits on its own with the result of remove_trailing_emojis. -/
theorem strip_terminates (s : Str) :
    (∀ u u' : Str, strip_step u = (u', true) → u'.length < u.length) ∧
      stripLoopO (s.length + 1) s = some (remove_trailing_emojis s) :=
  ⟨fun u u' h => strip_step_true u u' h,
   stripLoopO_complete (s.length + 1) s (by omega)⟩

/-- Witness for strip_terminates at a concrete annotated label. -/
theorem strip_terminates_wit :
    ("a ".data).length < ("a ✅".data).length ∧
      stripLoopO (("a ✅".data).length + 1) ("a ✅".data) =
        some (remove_trailing_emojis ("a ✅".data)) :=
  ⟨(strip_terminates ("a ✅".data)).1 ("a ✅".data) ("a ".data) (by decide),
   (strip_terminates ("a ✅".data)).2⟩

/-- Claim C2 counterexample: for the label x followed by a check-mark glyph
(a label that strip does not leave unchanged), re-annotation does not
reproduce annotate(B, G2): the old glyph of B itself is removed, so the
two sides differ. -/
theorem glyph_stacking_cex :
    annotate (remove_trailing_emojis (annotate ("x ✅".data) ("🔴".data))) ("🎉".data) ≠
      annotate ("x ✅".data) ("🎉".data) := by decide

/-- Claim C2 (amended): for every label B that strip leaves unchanged and
any two glyphs G1 G2 of the fixed set, annotating after stripping replaces
the glyph: annotate(strip(annotate(B, G1)), G2) equals annotate(B, G2). -/
theorem glyph_replace_on_clean (B g1 g2 : Str)
    (hB : remove_trailing_emojis B = B) (h1 : g1 ∈ emojis) (h2 : g2 ∈ emojis) :
    annotate (remove_trailing_emojis (annotate B g1)) g2 = annotate B g2 := by
  unfold annotate
  rw [strip_annotate B g1 h1, hB]

/-- Witness for glyph_replace_on_clean at the clean label x. -/
theorem glyph_replace_on_clean_wit :
    annotate (remove_trailing_emojis (annotate ("x".data) ("✅".data))) ("🔴".data) =
      annotate ("x".data) ("🔴".data) :=
  glyph_replace_on_clean ("x".data) ("✅".data) ("🔴".data)
    (by decide) (by decide) (by decide)

/-- Claim C7 counterexample: the base label a-space contains no trailing
glyph, yet strip(annotate(B, G)) also removes the trailing whitespace of B
and returns a, not B. -/
theorem roundtrip_trailing_space_cex :
    (∀ e ∈ emojis, ¬ e <:+ "a ".data) ∧ ("✅".data) ∈ emojis ∧
      remove_trailing_emojis (annotate ("a ".data) ("✅".data)) ≠ "a ".data := by decide

/-- Claim C7 (amended): for every base label B with no trailing whitespace
and no trailing glyph, and every glyph G of the fixed set,
strip(annotate(B, G)) equals B. -/
theorem strip_annotate_roundtrip (B g : Str) (hg : g ∈ emojis)
    (h1 : B.getLast?.all (fun c => !isWhite c) = true)
    (h2 : ∀ e ∈ emojis, ¬ e <:+ B) :
    remove_trailing_emojis (annotate B g) = B := by
  unfold annotate
  rw [strip_annotate B g hg]
  exact strip_of_clean B (trimEnd_of_last_not_white B h1) (findEmojiSuffix_eq_none B h2)

/-- Witness for strip_annotate_roundtrip at the label build. -/
theorem strip_annotate_roundtrip_wit :
    remove_trailing_emojis (annotate ("build".data) ("⚡".data)) = "build".data :=
  strip_annotate_roundtrip ("build".data) ("⚡".data) (by decide) (by decide) (by decide)

/-! ### Claims about the event ingestor and the resolver -/

/-- Claim C1: a tab-topology event emits at most one rename; an event whose
active tab matches the stored focus emits none; a rename is emitted only on
a focus transition whose tab name strip would change; and replaying the
same event right after produces no further rename. -/
theorem cleanup_once_per_focus_transition (s : State) (tabs : List TabInfo) :
    (update s (Event.TabUpdate tabs)).2.1.length ≤ 1 ∧
      (∀ tab, tabs.find? (fun t => t.active) = some tab →
        s.focused_tab_position = some tab.position →
        (update s (Event.TabUpdate tabs)).2.1 = []) ∧
      ((update s (Event.TabUpdate tabs)).2.1 ≠ [] →
        ∃ tab, tabs.find? (fun t => t.active) = some tab ∧
          s.focused_tab_position ≠ some tab.position ∧
          remove_trailing_emojis tab.name ≠ tab.name) ∧
      (update (update s (Event.TabUpdate tabs)).1 (Event.TabUpdate tabs)).2.1 = [] := by
  rcases hft : tabs.find? (fun t => t.active) with _ | tab
  · have hu : update s (Event.TabUpdate tabs) =
        (State.mk tabs s.focused_tab_position s.pane_manifest s.presets s.debug, [], false) := by
      simp [update, hft]
    refine ⟨by rw [hu]; simp, ?_, ?_, ?_⟩
    · intro tab htab
      rw [hft] at htab
      cases htab
    · intro h
      rw [hu] at h
      exact absurd rfl h
    · rw [hu]
      simp [update, hft]
  · by_cases hfoc : s.focused_tab_position = some tab.position
    · have hu : update s (Event.TabUpdate tabs) =
          (State.mk tabs s.focused_tab_position s.pane_manifest s.presets s.debug, [], false) := by
        simp [update, hft, hfoc]
      refine ⟨by rw [hu]; simp, fun _ _ _ => by rw [hu], ?_, ?_⟩
      · intro h
        rw [hu] at h
        exact absurd rfl h
      · rw [hu]
        simp [update, hft, hfoc]
    · by_cases hcl : remove_trailing_emojis tab.name = tab.name
      · have hu : update s (Event.TabUpdate tabs) =
            (State.mk tabs (some tab.position) s.pane_manifest s.presets s.debug, [], false) := by
          simp [update, hft, hfoc, hcl]
        refine ⟨by rw [hu]; simp, fun _ _ _ => by rw [hu], ?_, ?_⟩
        · intro h
          rw [hu] at h
          exact absurd rfl h
        · rw [hu]
          simp [update, hft]
      · have hu : update s (Event.TabUpdate tabs) =
            (State.mk tabs (some tab.position) s.pane_manifest s.presets s.debug,
             [RenameAction.mk ((tab.position % 4294967296 + 1) % 4294967296)
               (remove_trailing_emojis tab.name)], false) := by
          simp [update, hft, hfoc, hcl]
        refine ⟨by rw [hu]; simp, ?_, ?_, ?_⟩
        · intro tab' htab' hfoc'
          rw [hft] at htab'
          injection htab' with he
          rw [← he] at hfoc'
          exact absurd hfoc' hfoc
        · intro _
          exact ⟨tab, hft, hfoc, hcl⟩
        · rw [hu]
          simp [update, hft]

/-- Witness for cleanup_once_per_focus_transition: the active tab already
matches the stored focus, so no rename is emitted. -/
theorem cleanup_once_per_focus_transition_wit :
    (update (State.mk [] (some 1) none [] false)
        (Event.TabUpdate [TabInfo.mk 1 ("build".data) true false])).2.1 = [] :=
  (cleanup_once_per_focus_transition (State.mk [] (some 1) none [] false)
      [TabInfo.mk 1 ("build".data) true false]).2.1
    (TabInfo.mk 1 ("build".data) true false) (by decide) (by decide)

/-- Claim C4: a request whose pane_id argument matches no pane record of the
stored manifest (including the case of no manifest at all) resolves to no
target and emits no rename, regardless of any tab_position argument or
active tab. -/
theorem pane_id_miss_aborts_resolution (s : State) (msg : PipeMessage) (pid : Str)
    (hname : msg.name = "notify".data)
    (hpid : assocGet msg.args ("pane_id".data) = some pid)
    (hmiss : ∀ entry ∈ paneEntries s, ∀ p ∈ entry.2, (Nat.repr p.id).data ≠ pid) :
    target_tab_position s msg.args = none ∧ (pipe s msg).2.1 = [] := by
  have htarget : target_tab_position s msg.args = none := by
    rcases hpm : s.pane_manifest with _ | m
    · unfold target_tab_position
      rw [hpid, hpm]
    · unfold target_tab_position
      rw [hpid, hpm]
      show findPane m.panes pid = none
      have hent : paneEntries s = m.panes := by
        unfold paneEntries
        rw [hpm]
      unfold findPane
      have hfind : m.panes.find?
          (fun entry => entry.2.any (fun p => decide ((Nat.repr p.id).data = pid))) = none := by
        rw [List.find?_eq_none]
        intro entry hentry hany
        rw [List.any_eq_true] at hany
        obtain ⟨p, hp, hdec⟩ := hany
        exact hmiss entry (hent ▸ hentry) p hp (of_decide_eq_true hdec)
      rw [hfind]
      rfl
  exact ⟨htarget, by simp [pipe, hname, htarget, emit_rename]⟩

/-- Witness for pane_id_miss_aborts_resolution: pane id 999 is absent from
the manifest, while a tab_position argument and an active tab are present. -/
theorem pane_id_miss_aborts_resolution_wit :
    target_tab_position
        (State.mk [TabInfo.mk 0 ("shell".data) true false] none
          (some (PaneManifest.mk [(0, [PaneInfo.mk 7])])) [] false)
        [("pane_id".data, "999".data), ("tab_position".data, "0".data)] = none ∧
      (pipe
          (State.mk [TabInfo.mk 0 ("shell".data) true false] none
            (some (PaneManifest.mk [(0, [PaneInfo.mk 7])])) [] false)
          (PipeMessage.mk ("notify".data) none
            [("pane_id".data, "999".data), ("tab_position".data, "0".data)])).2.1 = [] :=
  pane_id_miss_aborts_resolution
    (State.mk [TabInfo.mk 0 ("shell".data) true false] none
      (some (PaneManifest.mk [(0, [PaneInfo.mk 7])])) [] false)
    (PipeMessage.mk ("notify".data) none
      [("pane_id".data, "999".data), ("tab_position".data, "0".data)])
    ("999".data) rfl (by decide) (by decide)

/-- Claim C5: when args carries both a resolvable pane_id and a
tab_position, the pane-anchored tier wins: the target is the owning tab
position of the matching pane record, and tab_position is not consulted. -/
theorem pane_tier_takes_precedence (s : State) (msg : PipeMessage) (pid v : Str)
    (m : PaneManifest) (tp : Nat)
    (hname : msg.name = "notify".data)
    (hpid : assocGet msg.args ("pane_id".data) = some pid)
    (htp : assocGet msg.args ("tab_position".data) = some v)
    (hman : s.pane_manifest = some m)
    (hfound : findPane m.panes pid = some tp) :
    target_tab_position s msg.args = some tp ∧
      ∃ entry ∈ m.panes, entry.1 = tp ∧ ∃ p ∈ entry.2, (Nat.repr p.id).data = pid := by
  constructor
  · unfold target_tab_position
    rw [hpid, hman]
    exact hfound
  · unfold findPane at hfound
    rcases hf : m.panes.find?
        (fun entry => entry.2.any (fun p => decide ((Nat.repr p.id).data = pid))) with _ | entry
    · rw [hf] at hfound
      cases hfound
    · rw [hf] at hfound
      have hmem := List.mem_of_find?_eq_some hf
      have hp := List.find?_some hf
      have hany : entry.2.any (fun p => decide ((Nat.repr p.id).data = pid)) = true := by
        simpa using hp
      rw [List.any_eq_true] at hany
      obtain ⟨p, hpmem, hdec⟩ := hany
      have htp' : entry.1 = tp := by
        simpa using hfound
      exact ⟨entry, hmem, htp', p, hpmem, of_decide_eq_true hdec⟩

/-- Witness for pane_tier_takes_precedence: pane 9 lives in tab 1 while
tab_position says 0; the pane tier wins with target 1. -/
theorem pane_tier_takes_precedence_wit :
    target_tab_position
        (State.mk
          [TabInfo.mk 0 ("shell".data) false false, TabInfo.mk 1 ("build ⚡".data) true false]
          none (some (PaneManifest.mk [(0, [PaneInfo.mk 7]), (1, [PaneInfo.mk 9])])) [] false)
        [("pane_id".data, "9".data), ("tab_position".data, "0".data)] = some 1 ∧
      ∃ entry ∈ [(0, [PaneInfo.mk 7]), (1, [PaneInfo.mk 9])], entry.1 = 1 ∧
        ∃ p ∈ entry.2, (Nat.repr p.id).data = "9".data :=
  pane_tier_takes_precedence
    (State.mk
      [TabInfo.mk 0 ("shell".data) false false, TabInfo.mk 1 ("build ⚡".data) true false]
      none (some (PaneManifest.mk [(0, [PaneInfo.mk 7]), (1, [PaneInfo.mk 9])])) [] false)
    (PipeMessage.mk ("notify".data) (some ("done".data))
      [("pane_id".data, "9".data), ("tab_position".data, "0".data)])
    ("9".data) ("0".data) (PaneManifest.mk [(0, [PaneInfo.mk 7]), (1, [PaneInfo.mk 9])]) 1
    rfl (by decide) (by decide) rfl (by decide)

theorem emit_rename_some (s : State) (position : Nat) (emoji : Str) :
    emit_rename s (some position) emoji =
      match s.all_tabs.find? (fun t => decide (t.position = position)) with
      | some tab =>
        [RenameAction.mk ((position % 4294967296 + 1) % 4294967296)
          (annotate (remove_trailing_emojis tab.name) emoji)]
      | none => [] := rfl

theorem resolve_preset_some (presets : List (Str × PresetConfig)) (p : Str) :
    resolve_preset presets (some p) =
      if p = [] then PresetConfig.mk ("✅".data)
      else
        match assocGet presets p with
        | some pr => pr
        | none => PresetConfig.mk ("❓".data) := rfl

/-- Claim C6 counterexample: at the resolved position 4294967295 (the
largest 32-bit usize) a rename is emitted, but its index is the wrapped
u32 value 0, not position + 1. -/
theorem mutation_index_wrap_cex :
    (pipe
        (State.mk [TabInfo.mk 4294967295 ("x".data) true false] none none [] false)
        (PipeMessage.mk ("notify".data) none
          [("tab_position".data, "4294967295".data)])).2.1 =
      [RenameAction.mk 0 ("x ✅".data)] ∧ (0 : Nat) ≠ 4294967295 + 1 := by decide

/-- Claim C6 (amended): for every resolved target position, if no stored
tab has that position nothing is emitted; otherwise exactly one rename is
emitted whose label is annotate(strip(tab.name), glyph) and whose index is
(position + 1) taken modulo 2^32 by the u32 cast, equal to position + 1
whenever position + 1 is below 2^32. -/
theorem mutation_step_behavior (s : State) (msg : PipeMessage) (position : Nat)
    (hname : msg.name = "notify".data)
    (htarget : target_tab_position s msg.args = some position) :
    ((∀ t ∈ s.all_tabs, t.position ≠ position) → (pipe s msg).2.1 = []) ∧
      (∀ tab, s.all_tabs.find? (fun t => decide (t.position = position)) = some tab →
        (pipe s msg).2.1 =
          [RenameAction.mk ((position % 4294967296 + 1) % 4294967296)
            (annotate (remove_trailing_emojis tab.name)
              (resolve_preset s.presets msg.payload).emoji)]) ∧
      (position + 1 < 4294967296 → (position % 4294967296 + 1) % 4294967296 = position + 1) := by
  have hp : (pipe s msg).2.1 =
      emit_rename s (some position) (resolve_preset s.presets msg.payload).emoji := by
    simp [pipe, hname, htarget]
  refine ⟨?_, ?_, ?_⟩
  · intro hno
    have hfind : s.all_tabs.find? (fun t => decide (t.position = position)) = none := by
      rw [List.find?_eq_none]
      intro t ht
      simpa using hno t ht
    rw [hp, emit_rename_some, hfind]
  · intro tab hfind
    rw [hp, emit_rename_some, hfind]
  · intro hlt
    omega

/-- Witness for mutation_step_behavior, the scenario of the specification:
pane 9 resolves to tab 1 named build-lightning, preset done gives the
check-mark glyph, and the host receives rename (2, build check-mark). -/
theorem mutation_step_behavior_wit :
    (pipe
        (State.mk
          [TabInfo.mk 0 ("shell".data) false false, TabInfo.mk 1 ("build ⚡".data) true false]
          none (some (PaneManifest.mk [(0, [PaneInfo.mk 7]), (1, [PaneInfo.mk 9])]))
          [("done".data, PresetConfig.mk ("✅".data))] false)
        (PipeMessage.mk ("notify".data) (some ("done".data))
          [("pane_id".data, "9".data)])).2.1 =
      [RenameAction.mk 2 ("build ✅".data)] := by
  have h := (mutation_step_behavior
      (State.mk
        [TabInfo.mk 0 ("shell".data) false false, TabInfo.mk 1 ("build ⚡".data) true false]
        none (some (PaneManifest.mk [(0, [PaneInfo.mk 7]), (1, [PaneInfo.mk 9])]))
        [("done".data, PresetConfig.mk ("✅".data))] false)
      (PipeMessage.mk ("notify".data) (some ("done".data))
        [("pane_id".data, "9".data)])
      1 rfl (by decide)).2.1
    (TabInfo.mk 1 ("build ⚡".data) true false) (by decide)
  exact h.trans (by decide)

/-- Claim C8: a non-empty payload that is not a preset key resolves to the
built-in fallback glyph, which differs from the default glyph used for an
absent or empty payload, and the request is still processed through the
normal mutation step rather than dropped. -/
theorem unknown_preset_uses_fallback (s : State) (msg : PipeMessage) (p : Str)
    (hpay : msg.payload = some p) (hne : p ≠ [])
    (hmiss : assocGet s.presets p = none) :
    resolve_preset s.presets msg.payload = PresetConfig.mk ("❓".data) ∧
      ("❓".data : Str) ≠ "✅".data ∧
      resolve_preset s.presets none = PresetConfig.mk ("✅".data) ∧
      resolve_preset s.presets (some []) = PresetConfig.mk ("✅".data) ∧
      (msg.name = "notify".data →
        pipe s msg =
          (s, emit_rename s (target_tab_position s msg.args) ("❓".data), false)) := by
  have hres : resolve_preset s.presets msg.payload = PresetConfig.mk ("❓".data) := by
    rw [hpay, resolve_preset_some, if_neg hne, hmiss]
  refine ⟨hres, by decide, rfl, rfl, ?_⟩
  intro hname
  simp [pipe, hname, hres]

/-- Witness for unknown_preset_uses_fallback: the unknown key boom yields
the fallback glyph and the active tab is still renamed with it. -/
theorem unknown_preset_uses_fallback_wit :
    resolve_preset [("done".data, PresetConfig.mk ("✅".data))] (some ("boom".data)) =
        PresetConfig.mk ("❓".data) ∧
      (pipe
          (State.mk [TabInfo.mk 0 ("work".data) true false] none none
            [("done".data, PresetConfig.mk ("✅".data))] false)
          (PipeMessage.mk ("notify".data) (some ("boom".data)) [])).2.1 =
        [RenameAction.mk 1 ("work ❓".data)] := by
  have h := unknown_preset_uses_fallback
    (State.mk [TabInfo.mk 0 ("work".data) true false] none none
      [("done".data, PresetConfig.mk ("✅".data))] false)
    (PipeMessage.mk ("notify".data) (some ("boom".data)) [])
    ("boom".data) rfl (by decide) (by decide)
  refine ⟨h.1, ?_⟩
  have h5 := h.2.2.2.2 rfl
  rw [h5]
  decide
